import Mathlib

/-!
Shallow embedding of the region-parallel annotation-and-merge engine of
src/src/python/add_cpg_counts.py (functions proc_chr, proc_header,
BamMethylData.set_regions, BamMethylData.start_threads, main).

External collaborators that are not under src (init_genome.chromosome_order,
bam2pat.subprocess_wrap, bam2pat.extend_region, bam2pat.is_pair_end) are
abstracted as parameters; where the spec fixes their behaviour this is noted
in the doc comment of the definition that uses them.

Shell commands are modelled as the exact strings the Python code builds;
side effects of the coordinator (running a subprocess, creating the worker
pool, dispatching a job, removing a file) are modelled as an explicit event
trace so that frame properties are statable.
-/

set_option maxRecDepth 20000

namespace AddCpgCounts

/-- Coordinator-level observable effects of one start_threads run. -/
inductive Event where
  /-- proc_header runs the header-extraction shell command (line 164). -/
  | headerExtract (cmd : String)
  /-- set_regions runs the samtools idxstats contig-listing command (line 128). -/
  | idxstatsRun (cmd : String)
  /-- the multiprocessing Pool is created with the given size (line 168). -/
  | poolCreate (threads : Nat)
  /-- one proc_chr job is submitted to the pool via apply_async (line 175). -/
  | dispatch (region : String) (out_path_name : String)
  /-- one proc_chr job is executed inline, without a pool (line 185). -/
  | inlineJob (region : String) (out_path_name : String)
  /-- the samtools merge command is executed (lines 200 and 205). -/
  | mergeRun (cmd : String)
  /-- the samtools index command is executed (lines 215 and 217). -/
  | indexRun (cmd : String)
  /-- os.remove is called on the given path (line 222). -/
  | removeFile (path : String)
deriving DecidableEq, Repr

/-- Exceptions that BamMethylData.start_threads can raise.  Both are
IllegalArgumentError in the Python source; the constructor distinguishes the
two raise sites.  noChromosomesFound carries the remediation hint eprinted at
lines 143 to 147 together with the exception payload of line 148. -/
inductive RunError where
  | noChromosomesFound (hint : String) (msg : String)
  | emptyBam (msg : String)
deriving DecidableEq, Repr

/-- How one start_threads call terminates: normally after merge plus cleanup,
normally but early with the message threads failed (lines 190 to 192), or by
raising an exception. -/
inductive Outcome where
  | ok
  | threadsFailed
  | err (e : RunError)
deriving DecidableEq, Repr

/-! Path construction, from proc_chr lines 31 and 32 and start_threads
lines 162, 163, 166, 170, 182 to 184. -/

/-- Line 31 of proc_chr: the unsorted intermediate bam path. -/
def unsorted_bam (out_path_name : String) : String :=
  out_path_name ++ "_unsorted.output.bam"

/-- Line 32 of proc_chr: the final per-region artifact path of one job. -/
def out_path (out_path_name : String) : String :=
  out_path_name ++ ".output.bam"

/-- Line 162: op.join of out_dir with the bam basename, with the last four
characters (the .bam extension) stripped, as the Python slice does. -/
def run_name (out_dir bam_basename : String) : String :=
  out_dir ++ "/" ++
    String.mk (bam_basename.data.take (bam_basename.data.length - 4))

/-- Line 163: the shared extracted-header path. -/
def header_path_of (name : String) : String :=
  name ++ ".header"

/-- Line 170: the per-region out_path_name handed to proc_chr. -/
def region_out_name (name c : String) : String :=
  name ++ "_" ++ c

/-- Substitution of every occurrence of one character, which is what the two
Python replace calls of line 182 perform on their one-character patterns. -/
def replace_char (pat rep : Char) (s : String) : String :=
  String.mk (s.data.map (fun c => if c = pat then rep else c))

/-- Line 182: region string sanitised for use in a file name. -/
def region_str_for_name (r : String) : String :=
  replace_char '-' '_' (replace_char ':' '_' r)

/-- Lines 166 and 183: the final merged artifact path, which carries a
region-derived token exactly when an explicit region was requested. -/
def final_path (name : String) (region_str : Option String) (suffix : String) :
    String :=
  match region_str with
  | none => name ++ "." ++ suffix ++ ".bam"
  | some r => name ++ "." ++ region_str_for_name r ++ "." ++ suffix ++ ".bam"

/-! Shell command construction. -/

/-- Lines 37 to 40 of proc_chr: the inclusion-flags argument.  in_flags none
models the Python in_flags is None case. -/
def in_flags_arg (paired_end : Bool) (in_flags : Option String) : String :=
  match in_flags with
  | none => if paired_end then "-f 3" else ""
  | some f => "-f " ++ f

/-- Lines 41 to 45 of proc_chr: the samtools view filter stage of the job
command, including the optional BED restriction.  The string is built exactly
as the Python format and concatenation build it. -/
def filter_cmd (input_path region mapq ex_flags : String) (paired_end : Bool)
    (in_flags : Option String) (bed_file : Option String) : String :=
  let cmd := "samtools view " ++ input_path ++ " " ++ region ++ " -q " ++ mapq
      ++ " -F " ++ ex_flags ++ " " ++ in_flags_arg paired_end in_flags
  match bed_file with
  | some b => cmd ++ "-M -L " ++ b ++ " | "
  | none => cmd ++ "| "

/-- Lines 41 to 56 of proc_chr: the full job pipeline command.  The external
tool paths and the extended region string computed by bam2pat.extend_region
are parameters, since those collaborators are not under src. -/
def proc_chr_cmd (input_path out_path_name region mapq ex_flags : String)
    (paired_end : Bool) (in_flags bed_file : Option String) (debug : Bool)
    (match_maker_tool add_cpg_count_tool dict_path extended_region clip : String)
    (min_cpg : Option String) (add_pat : Bool) (header_path : String) : String :=
  let cmd := filter_cmd input_path region mapq ex_flags paired_end in_flags bed_file
  let cmd := if debug then cmd ++ " head -200 | " else cmd
  let cmd := if paired_end then cmd ++ match_maker_tool ++ " | " else cmd
  let cmd := cmd ++ add_cpg_count_tool ++ " " ++ dict_path ++ " " ++
      extended_region ++ " --clip " ++ clip
  let cmd := match min_cpg with
    | some m => cmd ++ " --min_cpg " ++ m
    | none => cmd
  let cmd := if add_pat then cmd ++ " --pat" else cmd
  cmd ++ " | cat " ++ header_path ++ " - | samtools view -b - > " ++
      unsorted_bam out_path_name

/-- Line 58 of proc_chr: the coordinate-sort command of one job. -/
def sort_cmd (out_path_str out_directory unsorted : String) : String :=
  "samtools sort -o " ++ out_path_str ++ " -T " ++ out_directory ++ " " ++ unsorted

/-- Line 67: the header-extraction command. -/
def get_header_command (input_path : String) : String :=
  "samtools view -H " ++ input_path

/-- Line 72 of proc_header: header extraction redirected to the shared path. -/
def proc_header_cmd (input_path out_path_str : String) : String :=
  get_header_command input_path ++ " > " ++ out_path_str ++ " "

/-- Line 127 of set_regions: the contig-listing command. -/
def idxstats_cmd (bam_path : String) : String :=
  "samtools idxstats " ++ bam_path ++ " | cut -f1 "

/-- Line 200: the samtools merge command over the collected per-region
artifact paths, joined by single spaces in list order. -/
def merge_cmd (header_path final : String) (paths : List String) : String :=
  "samtools merge -c -p -f -h " ++ header_path ++ " " ++ final ++ " " ++
      String.intercalate " " paths

/-- Line 215: the samtools index command over the final artifact. -/
def index_cmd (final : String) : String :=
  "samtools index " ++ final

/-- Accumulating splitter for cmd_tokens: acc holds the current token in
reverse order. -/
def tokensAux : List Char → List Char → List String
  | [], acc => if acc.isEmpty then [] else [String.mk acc.reverse]
  | c :: cs, acc =>
      if c = ' ' then
        if acc.isEmpty then tokensAux cs []
        else String.mk acc.reverse :: tokensAux cs []
      else tokensAux cs (c :: acc)

/-- Whitespace-separated tokens of a shell command string. -/
def cmd_tokens (cmd : String) : List String :=
  tokensAux cmd.data []

/-! Region resolution, from set_regions lines 121 to 150. -/

/-- Stable insertion of one element into a key-sorted list: the element is
placed before the first element whose key is not smaller, so elements with
equal keys keep their relative order, as Python sorted guarantees. -/
def insertSorted (key : String → Nat) (c : String) : List String → List String
  | [] => [c]
  | d :: ds =>
      if key c ≤ key d then c :: d :: ds else d :: insertSorted key c ds

/-- Stable sort by a numeric key, modelling Python sorted with a key
function (line 150). -/
def sortByKey (key : String → Nat) : List String → List String
  | [] => []
  | c :: cs => insertSorted key c (sortByKey key cs)

/-- Line 140: list of set bam_chroms intersected with set ref_chroms.
CPython set iteration order is unspecified, so this model enumerates the
intersection in bam-list order with duplicates removed; no theorem below
depends on this arbitrary choice except through explicit case analysis. -/
def intersected_chroms (bam_chroms ref_chroms : List String) : List String :=
  (bam_chroms.filter (fun c => ref_chroms.contains c)).dedup

/-- Lines 143 to 146: the remediation hint eprinted before the resolution
error is raised. -/
def no_chroms_hint : String :=
  "[wt acc] Failed retrieving valid chromosome names. Perhaps you are using a wrong genome reference. Try running:\n\t\twgbstools set_default_ref -ls\nMake sure the chromosomes in the bam header exists in the reference fasta"

/-- Lines 121 to 150, BamMethylData.set_regions.  The contigs present in the
bam index (the idxstats output) and the reference contig list returned by
genome.get_chroms are inputs; idxstats_ok false models the branch of
lines 130 to 134 where idxstats fails or returns no output, in which case the
Python code returns an empty list without raising.  key abstracts
init_genome.chromosome_order, a function of the contig name alone, which is
imported but not under src. -/
def set_regions (region_str : Option String) (idxstats_ok : Bool)
    (bam_chroms ref_chroms : List String) (key : String → Nat) :
    Except RunError (List String) :=
  match region_str with
  | some r => Except.ok [r]
  | none =>
    if idxstats_ok then
      let inter := intersected_chroms bam_chroms ref_chroms
      if inter.isEmpty then
        Except.error (RunError.noChromosomesFound no_chroms_hint "Failed")
      else
        Except.ok (sortByKey key inter)
    else
      Except.ok []

/-- Intersection of bam and reference contigs enumerated in the canonical
order of the reference contig list.  This follows the words of the spec
(section 4.1, order the intersected contigs using the canonical contig order
of the reference genome); it is the comparison point for the refinement
claim about set_regions, not a translation of the source. -/
def spec_ref_order_intersection (bam_chroms ref_chroms : List String) :
    List String :=
  ref_chroms.filter (fun c => bam_chroms.contains c)

/-! Worker pool and result collection, from start_threads lines 167 to 192.
The pool runs the submitted jobs concurrently; which job finishes first is
not determined.  The completion order is therefore a parameter pi, a list of
submission indices in the order the jobs reach their terminal state.  Each
terminal state is appended to a completion log; the collected result list of
line 180 reads every promise in submission order, not completion order. -/

/-- Modelled from the spec: bam2pat.subprocess_wrap is not under src; by
section 4.3 of the spec a failing pipeline stage makes the job return the
failure sentinel None instead of raising past the job boundary.  A job for
the given region therefore yields some artifact path exactly when the
success oracle ok accepts the region, and none otherwise (the artifact path
itself is line 64 of proc_chr, the returned out_path). -/
def job_result (ok : String → Bool) (region out_path_name : String) :
    Option String :=
  if ok region then some (out_path out_path_name) else none

/-- Terminal states of the pool in completion order: the job with submission
index i finishes with result f i. -/
def completion_log (pi : List Nat) (f : Nat → Option String) :
    List (Nat × Option String) :=
  pi.map (fun i => (i, f i))

/-- Line 180: res is read promise by promise in submission order; each read
looks the submission index up in the completion log. -/
def collect_results (n : Nat) (log : List (Nat × Option String)) :
    List (Option String) :=
  (List.range n).map (fun i => (log.lookup i).join)

/-- Results of the pooled jobs of lines 169 to 180, in submission order. -/
def pool_res (regions : List String) (ok : String → Bool) (name : String)
    (pi : List Nat) : List (Option String) :=
  collect_results regions.length
    (completion_log pi
      (fun i => (regions[i]?).bind
        (fun c => job_result ok c (region_out_name name c))))

/-- The collected result list res of one run: line 180 for the pooled branch
and lines 184 to 188 for the inline explicit-region branch, where the job is
run with out_path_name built from the literal token 1. -/
def run_res (name : String) (region_str : Option String)
    (regions : List String) (ok : String → Bool) (pi : List Nat) :
    List (Option String) :=
  match region_str with
  | none => pool_res regions ok name pi
  | some r => [job_result ok r (region_out_name name "1")]

/-- Lines 190 to 222: everything after the result list res is collected.
If any entry is the failure sentinel, the function prints threads failed and
returns at once (lines 190 to 192): no merge command is built, nothing is
removed.  Otherwise the merge and index commands run; their exit statuses
are parameters because the Python code never reads process.returncode after
communicate, so the continuation is the same for every exit status; then
the header path is appended to res and every listed path is removed
(lines 220 to 222). -/
def finish_run (header_path final : String) (res : List (Option String))
    (mergeExit idxExit : Nat) : List Event × Outcome :=
  if res.contains none then
    ([], Outcome.threadsFailed)
  else
    let paths := res.reduceOption
    ([Event.mergeRun (merge_cmd header_path final paths),
      Event.indexRun (index_cmd final)]
      ++ (paths ++ [header_path]).map Event.removeFile,
     Outcome.ok)

/-- Lines 158 to 222, BamMethylData.start_threads.  Inputs that the Python
method reads from object state or from subprocesses are parameters: the
idxstats contig list and the reference contig list feed set_regions, ok is
the per-region job success oracle, pi the pool completion order, mergeExit
and idxExit the exit statuses of the merge and index subprocesses.  The
returned trace lists the coordinator effects in program order. -/
def start_threads (bam_path out_dir bam_basename : String)
    (region_str : Option String) (suffix : String) (threads : Nat)
    (idxstats_ok : Bool) (bam_chroms ref_chroms : List String)
    (key : String → Nat) (ok : String → Bool) (pi : List Nat)
    (mergeExit idxExit : Nat) : List Event × Outcome :=
  let name := run_name out_dir bam_basename
  let header_path := header_path_of name
  let ev0 := [Event.headerExtract (proc_header_cmd bam_path header_path)]
  match region_str with
  | none =>
    let fp := final_path name none suffix
    let ev1 := ev0 ++ [Event.poolCreate threads,
                       Event.idxstatsRun (idxstats_cmd bam_path)]
    match set_regions none idxstats_ok bam_chroms ref_chroms key with
    | Except.error e => (ev1, Outcome.err e)
    | Except.ok regions =>
      let ev2 := ev1 ++ regions.map
          (fun c => Event.dispatch c (region_out_name name c))
      if regions.isEmpty then
        (ev2, Outcome.err (RunError.emptyBam "Empty bam file"))
      else
        let res := run_res name none regions ok pi
        let fr := finish_run header_path fp res mergeExit idxExit
        (ev2 ++ fr.1, fr.2)
  | some r =>
    let fp := final_path name (some r) suffix
    let opn := region_out_name name "1"
    let res := run_res name (some r) [] ok pi
    let fr := finish_run header_path fp res mergeExit idxExit
    (ev0 ++ [Event.inlineJob r opn] ++ fr.1, fr.2)

/-- Lines 246 to 250 of main: the per-file loop.  A file rejected by
validate_bam is skipped with a message and the loop continues; a normal
return of start_threads (Outcome.ok or Outcome.threadsFailed) also
continues; a raised exception is not caught anywhere in main, so it
propagates and terminates the whole invocation.  The result pairs the list
of files whose start_threads call was entered with the uncaught error, if
any. -/
def main_loop (validate : String → Bool) (run : String → Outcome) :
    List String → List String × Option RunError
  | [] => ([], none)
  | bam :: rest =>
    if validate bam then
      match run bam with
      | Outcome.err e => ([bam], some e)
      | _ =>
        let tail := main_loop validate run rest
        (bam :: tail.1, tail.2)
    else
      main_loop validate run rest

/-- Projection of an event to the path it removes, if it is a removal. -/
def removeFile? : Event → Option String
  | Event.removeFile p => some p
  | _ => none

/-- Paths removed by one run, in removal order: the removeFile events of the
trace. -/
def removed_paths (tr : List Event) : List String :=
  tr.filterMap removeFile?

/-! Helper lemmas about strings and about the pool collection. -/

lemma string_append_cancel_left {a s t : String} (h : a ++ s = a ++ t) :
    s = t := by
  apply String.ext
  have hd := congrArg String.data h
  rw [String.data_append, String.data_append] at hd
  exact List.append_cancel_left hd

lemma string_append_cancel_right {s t a : String} (h : s ++ a = t ++ a) :
    s = t := by
  apply String.ext
  have hd := congrArg String.data h
  rw [String.data_append, String.data_append] at hd
  exact List.append_cancel_right hd

lemma string_append_ne_of_head_ne {x y : String} (a : String)
    (h : x.data.head? ≠ y.data.head?) : a ++ x ≠ a ++ y := by
  intro he
  exact h (congrArg (fun s => s.data.head?) (string_append_cancel_left he))

lemma string_append_ne_of_last_ne {x y : String} (a : String)
    (h : x.data.getLast? ≠ y.data.getLast?) : a ++ x ≠ a ++ y := by
  intro he
  exact h (congrArg (fun s => s.data.getLast?) (string_append_cancel_left he))

lemma data_head?_append {p : String} {c : Char} (s : String)
    (hp : p.data = [c]) : (p ++ s).data.head? = some c := by
  rw [String.data_append, hp]
  rfl

lemma data_head?_append_append {p : String} {c : Char} (s t : String)
    (hp : p.data = [c]) : ((p ++ s) ++ t).data.head? = some c := by
  rw [String.data_append, String.data_append, hp]
  rfl

lemma data_getLast?_append {t : String} {c : Char} (s : String)
    (ht : t.data.getLast? = some c) : (s ++ t).data.getLast? = some c := by
  rw [String.data_append, List.getLast?_append, ht]
  rfl

lemma lookup_completion_log (f : Nat → Option String) (pi : List Nat)
    (i : Nat) (h : i ∈ pi) :
    (completion_log pi f).lookup i = some (f i) := by
  induction pi with
  | nil => cases h
  | cons j rest ih =>
    by_cases hij : i = j
    · subst hij
      simp [completion_log, List.lookup]
    · have hmem : i ∈ rest := by
        cases List.mem_cons.mp h with
        | inl hh => exact absurd hh hij
        | inr hh => exact hh
      have hbeq : (i == j) = false := beq_eq_false_iff_ne.mpr hij
      have : (completion_log (j :: rest) f).lookup i
          = (completion_log rest f).lookup i := by
        simp [completion_log, List.lookup, hbeq]
      rw [this]
      exact ih hmem

lemma collect_results_eq (f : Nat → Option String) (pi : List Nat) (n : Nat)
    (h : ∀ i, i < n → i ∈ pi) :
    collect_results n (completion_log pi f) = (List.range n).map f := by
  unfold collect_results
  apply List.map_congr_left
  intro i hi
  rw [lookup_completion_log f pi i (h i (List.mem_range.mp hi))]
  rfl

/-- Collected pooled results equal the per-region results in submission
order, for every completion order that covers every submitted job.  This is
the completion-order independence of line 180. -/
lemma pool_res_eq (regions : List String) (ok : String → Bool) (name : String)
    (pi : List Nat) (h : ∀ i, i < regions.length → i ∈ pi) :
    pool_res regions ok name pi
      = regions.map (fun c => job_result ok c (region_out_name name c)) := by
  unfold pool_res
  rw [collect_results_eq _ _ _ h]
  apply List.ext_getElem
  · simp
  · intro i h1 h2
    have hi : i < regions.length := by simpa using h2
    simp [List.getElem?_eq_getElem hi]

lemma reduceOption_map_some {α β : Type} (l : List α) (g : α → β) :
    (l.map (fun a => some (g a))).reduceOption = l.map g := by
  induction l with
  | nil => rfl
  | cons a t ih => simp [List.reduceOption_cons_of_some, ih]

lemma sortByKey_pair (key : String → Nat) (a b : String) :
    sortByKey key [a, b] = if key a ≤ key b then [a, b] else [b, a] := by
  by_cases h : key a ≤ key b <;> simp [sortByKey, insertSorted, h]

lemma set_regions_none_ok (bams refs : List String) (key : String → Nat)
    (hne : (intersected_chroms bams refs).isEmpty = false) :
    set_regions none true bams refs key
      = Except.ok (sortByKey key (intersected_chroms bams refs)) := by
  simp [set_regions, hne]

lemma set_regions_none_err (bams refs : List String) (key : String → Nat)
    (he : intersected_chroms bams refs = []) :
    set_regions none true bams refs key
      = Except.error (RunError.noChromosomesFound no_chroms_hint "Failed") := by
  simp [set_regions, he]

lemma finish_run_of_fail (hp fp : String) (res : List (Option String))
    (mE iE : Nat) (h : none ∈ res) :
    finish_run hp fp res mE iE = ([], Outcome.threadsFailed) := by
  unfold finish_run
  rw [if_pos]
  simpa using h

lemma finish_run_of_ok (hp fp : String) (res : List (Option String))
    (mE iE : Nat) (h : none ∉ res) :
    finish_run hp fp res mE iE
      = ([Event.mergeRun (merge_cmd hp fp res.reduceOption),
          Event.indexRun (index_cmd fp)]
          ++ (res.reduceOption ++ [hp]).map Event.removeFile,
         Outcome.ok) := by
  unfold finish_run
  rw [if_neg]
  simpa using h

/-! Theorems for the claims.  Each claim of the specification is settled by
exactly one of the named theorems below. -/

/-- C6: the filter-stage command of a paired-end job with a BED restriction
does not separate the inclusion-flags argument from the BED options: the
flag value and -M are glued into the single whitespace-separated token 3-M,
and -M does not occur as a token of its own.  This evaluates the embedded
command construction of proc_chr lines 41 to 43 at the failing input. -/
theorem filter_cmd_glues_in_flags_and_bed :
    filter_cmd "in.bam" "chr1" "10" "1796" true none (some "r.bed")
      = "samtools view in.bam chr1 -q 10 -F 1796 -f 3-M -L r.bed | "
    ∧ "3-M" ∈ cmd_tokens
        (filter_cmd "in.bam" "chr1" "10" "1796" true none (some "r.bed"))
    ∧ "-M" ∉ cmd_tokens
        (filter_cmd "in.bam" "chr1" "10" "1796" true none (some "r.bed")) :=
  ⟨rfl, by decide, by decide⟩

/-- C10: distinct resolved region names give distinct per-region artifact
paths, and within one job the unsorted intermediate path differs from the
final sorted artifact path, so no two jobs and no two stages of one job
write to the same file. -/
theorem job_artifact_paths_distinct :
    (∀ name c1 c2 : String, c1 ≠ c2 →
        out_path (region_out_name name c1) ≠ out_path (region_out_name name c2))
    ∧ ∀ p : String, unsorted_bam p ≠ out_path p := by
  constructor
  · intro name c1 c2 hne he
    apply hne
    simp only [out_path, region_out_name] at he
    exact string_append_cancel_left (string_append_cancel_right he)
  · intro p he
    simp only [unsorted_bam, out_path] at he
    have h1 := string_append_cancel_left he
    exact absurd h1 (by decide)

/-- Witness for C10 at a concrete run: the chr1 and chr2 jobs write to
different artifacts, and one job's unsorted intermediate differs from its
sorted artifact. -/
theorem job_artifact_paths_distinct_witness :
    (("chr1" : String) ≠ "chr2")
    ∧ out_path (region_out_name "/out/in" "chr1")
        ≠ out_path (region_out_name "/out/in" "chr2")
    ∧ unsorted_bam "/out/in_chr1" ≠ out_path "/out/in_chr1" :=
  ⟨by decide,
   job_artifact_paths_distinct.1 "/out/in" "chr1" "chr2" (by decide),
   job_artifact_paths_distinct.2 "/out/in_chr1"⟩

/-- C4: for every possible chromosome_order key function there are bam and
reference contig lists with a non-empty intersection on which set_regions
returns the intersected contigs in an order different from the canonical
order of the reference contig list.  The sort key of line 150 is a function
of the contig name alone, so it cannot reproduce a per-reference order; the
source carries a todo on line 150 acknowledging exactly this. -/
theorem set_regions_ignores_reference_order :
    ∀ key : String → Nat,
      ∃ bam_chroms ref_chroms regs : List String,
        set_regions none true bam_chroms ref_chroms key = Except.ok regs
        ∧ regs ≠ []
        ∧ regs ≠ spec_ref_order_intersection bam_chroms ref_chroms := by
  intro key
  by_cases h : key "chrA" ≤ key "chrB"
  · refine ⟨["chrA", "chrB"], ["chrB", "chrA"], ["chrA", "chrB"], ?_,
      by decide, by decide⟩
    have h1 : intersected_chroms ["chrA", "chrB"] ["chrB", "chrA"]
        = ["chrA", "chrB"] := by decide
    rw [set_regions_none_ok _ _ _ (by rw [h1]; rfl), h1, sortByKey_pair,
      if_pos h]
  · refine ⟨["chrA", "chrB"], ["chrA", "chrB"], ["chrB", "chrA"], ?_,
      by decide, by decide⟩
    have h1 : intersected_chroms ["chrA", "chrB"] ["chrA", "chrB"]
        = ["chrA", "chrB"] := by decide
    rw [set_regions_none_ok _ _ _ (by rw [h1]; rfl), h1, sortByKey_pair,
      if_neg h]

/-- C5: with no explicit region and an empty intersection of bam and
reference contigs, set_regions raises the resolution error carrying the
reference-configuration remediation hint, start_threads terminates with that
error, and the trace contains no job dispatch, no inline job, no merge and
no file removal. -/
theorem empty_intersection_aborts_before_dispatch
    (bam_path out_dir bam_basename suffix : String) (threads : Nat)
    (bam_chroms ref_chroms : List String) (key : String → Nat)
    (ok : String → Bool) (pi : List Nat) (mE iE : Nat)
    (hempty : ∀ c, c ∈ bam_chroms → c ∉ ref_chroms) :
    set_regions none true bam_chroms ref_chroms key
      = Except.error (RunError.noChromosomesFound no_chroms_hint "Failed")
    ∧ (start_threads bam_path out_dir bam_basename none suffix threads true
        bam_chroms ref_chroms key ok pi mE iE).2
      = Outcome.err (RunError.noChromosomesFound no_chroms_hint "Failed")
    ∧ ∀ e ∈ (start_threads bam_path out_dir bam_basename none suffix threads
        true bam_chroms ref_chroms key ok pi mE iE).1,
        (∀ c o, e ≠ Event.dispatch c o) ∧ (∀ c o, e ≠ Event.inlineJob c o)
        ∧ (∀ s, e ≠ Event.mergeRun s) ∧ (∀ p, e ≠ Event.removeFile p) := by
  have hfilter : bam_chroms.filter (fun c => ref_chroms.contains c) = [] := by
    rw [List.filter_eq_nil_iff]
    intro c hc
    simpa using hempty c hc
  have hi : intersected_chroms bam_chroms ref_chroms = [] := by
    unfold intersected_chroms
    rw [hfilter]
    rfl
  have hsr := set_regions_none_err bam_chroms ref_chroms key hi
  refine ⟨hsr, ?_, ?_⟩
  · simp only [start_threads, hsr]
  · simp only [start_threads, hsr]
    intro e he
    simp at he
    rcases he with rfl | rfl | rfl
    all_goals exact ⟨fun c o h => Event.noConfusion h,
      fun c o h => Event.noConfusion h,
      fun s h => Event.noConfusion h,
      fun p h => Event.noConfusion h⟩

/-- Witness for C5: a bam whose only contig chrX is absent from the
reference contig list. -/
theorem empty_intersection_aborts_before_dispatch_witness :
    (∀ c, c ∈ ["chrX"] → c ∉ (["chr1"] : List String))
    ∧ (set_regions none true ["chrX"] ["chr1"] (fun _ => 0)
        = Except.error (RunError.noChromosomesFound no_chroms_hint "Failed")
      ∧ (start_threads "/d/in.bam" "/out" "in.bam" none "counts" 4 true
          ["chrX"] ["chr1"] (fun _ => 0) (fun _ => true) [] 0 0).2
        = Outcome.err (RunError.noChromosomesFound no_chroms_hint "Failed")
      ∧ ∀ e ∈ (start_threads "/d/in.bam" "/out" "in.bam" none "counts" 4 true
          ["chrX"] ["chr1"] (fun _ => 0) (fun _ => true) [] 0 0).1,
          (∀ c o, e ≠ Event.dispatch c o) ∧ (∀ c o, e ≠ Event.inlineJob c o)
          ∧ (∀ s, e ≠ Event.mergeRun s) ∧ (∀ p, e ≠ Event.removeFile p)) :=
  ⟨by decide,
   empty_intersection_aborts_before_dispatch "/d/in.bam" "/out" "in.bam"
     "counts" 4 ["chrX"] ["chr1"] (fun _ => 0) (fun _ => true) [] 0 0
     (by decide)⟩

/-- C7 counterexample: with two valid input files where the first raises a
resolution error, the main loop terminates with the uncaught error and the
second file is never processed, refuting the claim that a multi-file
invocation continues with the remaining files. -/
theorem resolution_error_stops_whole_invocation :
    main_loop (fun _ => true)
      (fun b => if b = "a.bam"
        then Outcome.err (RunError.noChromosomesFound no_chroms_hint "Failed")
        else Outcome.ok)
      ["a.bam", "b.bam"]
      = (["a.bam"], some (RunError.noChromosomesFound no_chroms_hint "Failed"))
    ∧ "b.bam" ∉ (main_loop (fun _ => true)
      (fun b => if b = "a.bam"
        then Outcome.err (RunError.noChromosomesFound no_chroms_hint "Failed")
        else Outcome.ok)
      ["a.bam", "b.bam"]).1 :=
  ⟨by decide, by decide⟩

/-- C7 amended: a file rejected by validate_bam is skipped and the remaining
files are still processed, but a resolution error raised inside
start_threads is uncaught and terminates the whole invocation, so the files
after it are not processed. -/
theorem validation_skip_continues_resolution_error_aborts
    (validate : String → Bool) (run : String → Outcome) (bam : String)
    (rest : List String) :
    (validate bam = false →
      main_loop validate run (bam :: rest) = main_loop validate run rest)
    ∧ ∀ e : RunError, validate bam = true → run bam = Outcome.err e →
      main_loop validate run (bam :: rest) = ([bam], some e) := by
  constructor
  · intro hv
    simp [main_loop, hv]
  · intro e hv hr
    simp [main_loop, hv, hr]

/-- Witness for the amended C7: a skipped file leaves the loop result of the
remaining files unchanged, and a raised resolution error terminates the loop
with the first file only. -/
theorem validation_skip_continues_resolution_error_aborts_witness :
    (main_loop (fun _ => false) (fun _ => Outcome.ok) ["a.bam", "b.bam"]
      = main_loop (fun _ => false) (fun _ => Outcome.ok) ["b.bam"])
    ∧ main_loop (fun _ => true)
        (fun _ => Outcome.err (RunError.emptyBam "Empty bam file"))
        ["a.bam", "b.bam"]
      = (["a.bam"], some (RunError.emptyBam "Empty bam file")) :=
  ⟨(validation_skip_continues_resolution_error_aborts
      (fun _ => false) (fun _ => Outcome.ok) "a.bam" ["b.bam"]).1 rfl,
   (validation_skip_continues_resolution_error_aborts
      (fun _ => true) (fun _ => Outcome.err (RunError.emptyBam "Empty bam file"))
      "a.bam" ["b.bam"]).2 (RunError.emptyBam "Empty bam file") rfl rfl⟩

/-- C1: if any collected job result is the failure sentinel None, the run
reports failure and returns at once: the trace of the whole run contains no
merge command, no index command and no file removal, whatever the pool
completion order was. -/
theorem job_failure_skips_merge
    (bam_path out_dir bam_basename suffix : String) (threads : Nat)
    (idxstats_ok : Bool) (bam_chroms ref_chroms : List String)
    (key : String → Nat) (ok : String → Bool) (pi : List Nat) (mE iE : Nat)
    (region_str : Option String) (regs : List String)
    (hres : set_regions region_str idxstats_ok bam_chroms ref_chroms key
      = Except.ok regs)
    (hfail : none ∈ run_res (run_name out_dir bam_basename) region_str regs
      ok pi) :
    (start_threads bam_path out_dir bam_basename region_str suffix threads
        idxstats_ok bam_chroms ref_chroms key ok pi mE iE).2
      = Outcome.threadsFailed
    ∧ ∀ e ∈ (start_threads bam_path out_dir bam_basename region_str suffix
        threads idxstats_ok bam_chroms ref_chroms key ok pi mE iE).1,
        (∀ s, e ≠ Event.mergeRun s) ∧ (∀ s, e ≠ Event.indexRun s)
        ∧ (∀ p, e ≠ Event.removeFile p) := by
  cases region_str with
  | some r =>
    have hff := finish_run_of_fail
      (header_path_of (run_name out_dir bam_basename))
      (final_path (run_name out_dir bam_basename) (some r) suffix)
      (run_res (run_name out_dir bam_basename) (some r) [] ok pi) mE iE hfail
    refine ⟨?_, ?_⟩
    · simp [start_threads, hff]
    · simp only [start_threads, hff]
      intro e he
      cases e <;>
        first
          | exact ⟨fun s h => Event.noConfusion h,
              fun s h => Event.noConfusion h, fun p h => Event.noConfusion h⟩
          | (exfalso; simp at he)
  | none =>
    cases regs with
    | nil =>
      simp [run_res, pool_res, collect_results] at hfail
    | cons c cs =>
      have hff := finish_run_of_fail
        (header_path_of (run_name out_dir bam_basename))
        (final_path (run_name out_dir bam_basename) none suffix)
        (run_res (run_name out_dir bam_basename) none (c :: cs) ok pi)
        mE iE hfail
      refine ⟨?_, ?_⟩
      · simp [start_threads, hres, hff]
      · simp only [start_threads, hres, List.isEmpty_cons, hff]
        intro e he
        cases e <;>
          first
            | exact ⟨fun s h => Event.noConfusion h,
                fun s h => Event.noConfusion h, fun p h => Event.noConfusion h⟩
            | (exfalso; simp at he)

/-- Witness for C1: a two-region run where the chr2 job fails and the pool
completes in reverse submission order. -/
theorem job_failure_skips_merge_witness :
    (set_regions none true ["chr1", "chr2"] ["chr1", "chr2"] (fun _ => 0)
      = Except.ok ["chr1", "chr2"])
    ∧ (none ∈ run_res (run_name "/out" "in.bam") none ["chr1", "chr2"]
        (fun c => c == "chr1") [1, 0])
    ∧ (start_threads "/d/in.bam" "/out" "in.bam" none "counts" 4 true
        ["chr1", "chr2"] ["chr1", "chr2"] (fun _ => 0) (fun c => c == "chr1")
        [1, 0] 5 7).2 = Outcome.threadsFailed :=
  ⟨rfl, by decide,
   (job_failure_skips_merge "/d/in.bam" "/out" "in.bam" "counts" 4 true
     ["chr1", "chr2"] ["chr1", "chr2"] (fun _ => 0) (fun c => c == "chr1")
     [1, 0] 5 7 none ["chr1", "chr2"] rfl (by decide)).1⟩

/-- C3: in a pooled multi-region run where every job succeeds, the merge
command executed lists the per-region artifact paths in resolver order, for
every pool completion order that covers the submitted jobs: the collected
result order is the submission order, not the completion order. -/
theorem merge_paths_in_resolver_order
    (bam_path out_dir bam_basename suffix : String) (threads : Nat)
    (idxstats_ok : Bool) (bam_chroms ref_chroms : List String)
    (key : String → Nat) (ok : String → Bool) (pi : List Nat) (mE iE : Nat)
    (regs : List String)
    (hres : set_regions none idxstats_ok bam_chroms ref_chroms key
      = Except.ok regs)
    (hne : regs ≠ [])
    (hok : ∀ c ∈ regs, ok c = true)
    (hcover : ∀ i < regs.length, i ∈ pi) :
    Event.mergeRun (merge_cmd
        (header_path_of (run_name out_dir bam_basename))
        (final_path (run_name out_dir bam_basename) none suffix)
        (regs.map (fun c =>
          out_path (region_out_name (run_name out_dir bam_basename) c))))
      ∈ (start_threads bam_path out_dir bam_basename none suffix threads
          idxstats_ok bam_chroms ref_chroms key ok pi mE iE).1 := by
  have hrr : run_res (run_name out_dir bam_basename) none regs ok pi
      = regs.map (fun c =>
          some (out_path (region_out_name (run_name out_dir bam_basename) c))) := by
    show pool_res regs ok (run_name out_dir bam_basename) pi = _
    rw [pool_res_eq regs ok (run_name out_dir bam_basename) pi hcover]
    apply List.map_congr_left
    intro c hc
    simp [job_result, hok c hc]
  have hnn : none ∉ run_res (run_name out_dir bam_basename) none regs ok pi := by
    rw [hrr]
    simp
  have hie : regs.isEmpty = false := by
    cases regs with
    | nil => exact absurd rfl hne
    | cons c cs => rfl
  simp only [start_threads, hres, hie]
  rw [finish_run_of_ok _ _ _ _ _ hnn, hrr, reduceOption_map_some]
  simp

/-- Witness for C3: two regions, all jobs succeed, the pool completes in
reverse order, and the merge command still lists chr1 before chr2. -/
theorem merge_paths_in_resolver_order_witness :
    (set_regions none true ["chr1", "chr2"] ["chr1", "chr2"] (fun _ => 0)
      = Except.ok ["chr1", "chr2"])
    ∧ ((["chr1", "chr2"] : List String) ≠ [])
    ∧ (∀ c ∈ (["chr1", "chr2"] : List String), (fun _ => true) c = true)
    ∧ (∀ i < (["chr1", "chr2"] : List String).length, i ∈ [1, 0])
    ∧ Event.mergeRun (merge_cmd "/out/in.header" "/out/in.counts.bam"
        ["/out/in_chr1.output.bam", "/out/in_chr2.output.bam"])
      ∈ (start_threads "/d/in.bam" "/out" "in.bam" none "counts" 4 true
          ["chr1", "chr2"] ["chr1", "chr2"] (fun _ => 0) (fun _ => true)
          [1, 0] 0 0).1 :=
  ⟨rfl, by decide, by decide, by decide,
   merge_paths_in_resolver_order "/d/in.bam" "/out" "in.bam" "counts" 4 true
     ["chr1", "chr2"] ["chr1", "chr2"] (fun _ => 0) (fun _ => true) [1, 0] 0 0
     ["chr1", "chr2"] rfl (by decide) (by decide) (by decide)⟩

lemma finish_run_events (hp fp : String) (res : List (Option String))
    (mE iE : Nat) :
    ∀ e ∈ (finish_run hp fp res mE iE).1,
      (e = Event.mergeRun (merge_cmd hp fp res.reduceOption))
      ∨ (e = Event.indexRun (index_cmd fp))
      ∨ ∃ p, e = Event.removeFile p := by
  intro e he
  unfold finish_run at he
  by_cases h : none ∈ res
  · simp [h] at he
  · simp [h] at he
    rcases he with rfl | rfl | ⟨p, hmem, rfl⟩ | rfl
    · exact Or.inl rfl
    · exact Or.inr (Or.inl rfl)
    · exact Or.inr (Or.inr ⟨p, rfl⟩)
    · exact Or.inr (Or.inr ⟨hp, rfl⟩)

/-- C2 counterexample: a concrete run whose merge and index subprocesses
both exit with status 1 still removes the per-region artifact and the shared
header and terminates as a normal completed run: a non-zero merge or index
exit status does not stop the run and does not prevent cleanup. -/
theorem merge_failure_not_fatal :
    (start_threads "/d/in.bam" "/out" "in.bam" none "counts" 4 true ["chr1"]
      ["chr1"] (fun _ => 0) (fun _ => true) [0] 1 1).2 = Outcome.ok
    ∧ Event.removeFile "/out/in_chr1.output.bam"
      ∈ (start_threads "/d/in.bam" "/out" "in.bam" none "counts" 4 true
          ["chr1"] ["chr1"] (fun _ => 0) (fun _ => true) [0] 1 1).1
    ∧ Event.removeFile "/out/in.header"
      ∈ (start_threads "/d/in.bam" "/out" "in.bam" none "counts" 4 true
          ["chr1"] ["chr1"] (fun _ => 0) (fun _ => true) [0] 1 1).1 :=
  ⟨by decide, by decide, by decide⟩

/-- C2 amended: the coordinator never inspects the exit statuses of the
merge and index subprocesses.  The whole run is the same function of its
other inputs for any two pairs of exit statuses, and whenever the collected
result list carries no failure sentinel the post-collection step removes the
per-region artifacts and the header and reports normal completion,
regardless of those exit statuses. -/
theorem merge_index_exit_statuses_ignored
    (bam_path out_dir bam_basename suffix : String) (threads : Nat)
    (idxstats_ok : Bool) (bam_chroms ref_chroms : List String)
    (key : String → Nat) (ok : String → Bool) (pi : List Nat)
    (region_str : Option String) (mE iE mE2 iE2 : Nat)
    (hp fp : String) (res : List (Option String)) (hok : none ∉ res) :
    (start_threads bam_path out_dir bam_basename region_str suffix threads
        idxstats_ok bam_chroms ref_chroms key ok pi mE iE
      = start_threads bam_path out_dir bam_basename region_str suffix threads
          idxstats_ok bam_chroms ref_chroms key ok pi mE2 iE2)
    ∧ (finish_run hp fp res mE iE).2 = Outcome.ok
    ∧ Event.removeFile hp ∈ (finish_run hp fp res mE iE).1 := by
  refine ⟨rfl, ?_, ?_⟩
  · rw [finish_run_of_ok _ _ _ _ _ hok]
  · rw [finish_run_of_ok _ _ _ _ _ hok]
    simp

/-- Witness for the amended C2 at a concrete completed run with non-zero
merge and index exit statuses. -/
theorem merge_index_exit_statuses_ignored_witness :
    ((none : Option String) ∉ [some "/out/in_chr1.output.bam"])
    ∧ ((start_threads "/d/in.bam" "/out" "in.bam" none "counts" 4 true
          ["chr1"] ["chr1"] (fun _ => 0) (fun _ => true) [0] 1 1
        = start_threads "/d/in.bam" "/out" "in.bam" none "counts" 4 true
          ["chr1"] ["chr1"] (fun _ => 0) (fun _ => true) [0] 0 0)
      ∧ (finish_run "/out/in.header" "/out/in.counts.bam"
          [some "/out/in_chr1.output.bam"] 1 1).2 = Outcome.ok
      ∧ Event.removeFile "/out/in.header"
        ∈ (finish_run "/out/in.header" "/out/in.counts.bam"
            [some "/out/in_chr1.output.bam"] 1 1).1) :=
  ⟨by decide,
   merge_index_exit_statuses_ignored "/d/in.bam" "/out" "in.bam" "counts" 4
     true ["chr1"] ["chr1"] (fun _ => 0) (fun _ => true) [0] none 1 1 0 0
     "/out/in.header" "/out/in.counts.bam" [some "/out/in_chr1.output.bam"]
     (by decide)⟩

/-- C8: with an explicit region the resolver returns exactly the
single-element sequence containing that region and runs no contig-listing
step, and the coordinator runs that one job inline: the trace contains the
inline job and contains no pool creation, no idxstats command and no pool
dispatch. -/
theorem explicit_region_runs_inline
    (bam_path out_dir bam_basename r suffix : String) (threads : Nat)
    (idxstats_ok : Bool) (bam_chroms ref_chroms : List String)
    (key : String → Nat) (ok : String → Bool) (pi : List Nat) (mE iE : Nat) :
    set_regions (some r) idxstats_ok bam_chroms ref_chroms key
      = Except.ok [r]
    ∧ Event.inlineJob r (region_out_name (run_name out_dir bam_basename) "1")
      ∈ (start_threads bam_path out_dir bam_basename (some r) suffix threads
          idxstats_ok bam_chroms ref_chroms key ok pi mE iE).1
    ∧ ∀ e ∈ (start_threads bam_path out_dir bam_basename (some r) suffix
        threads idxstats_ok bam_chroms ref_chroms key ok pi mE iE).1,
        (∀ t, e ≠ Event.poolCreate t) ∧ (∀ s, e ≠ Event.idxstatsRun s)
        ∧ (∀ c o, e ≠ Event.dispatch c o) := by
  refine ⟨rfl, ?_, ?_⟩
  · simp [start_threads]
  · simp only [start_threads]
    intro e he
    rcases List.mem_append.mp he with h01 | hfr
    · simp at h01
      rcases h01 with rfl | rfl
      all_goals exact ⟨fun t h => Event.noConfusion h,
        fun s h => Event.noConfusion h, fun c o h => Event.noConfusion h⟩
    · rcases finish_run_events _ _ _ _ _ e hfr with rfl | rfl | ⟨p, rfl⟩
      all_goals exact ⟨fun t h => Event.noConfusion h,
        fun s h => Event.noConfusion h, fun c o h => Event.noConfusion h⟩

/-! Character-list facts about the concrete path fragments, used to
separate the final artifact and its index from everything the cleanup
removes. -/

lemma data_lit_underscore : ("_" : String).data = ['_'] := rfl

lemma data_lit_dot : ("." : String).data = ['.'] := rfl

lemma data_lit_output_bam :
    (".output.bam" : String).data
      = ['.', 'o', 'u', 't', 'p', 'u', 't', '.', 'b', 'a', 'm'] := rfl

lemma data_lit_header :
    (".header" : String).data = ['.', 'h', 'e', 'a', 'd', 'e', 'r'] := rfl

lemma data_lit_bam : (".bam" : String).data = ['.', 'b', 'a', 'm'] := rfl

lemma data_lit_bai : (".bai" : String).data = ['.', 'b', 'a', 'i'] := rfl

lemma out_path_data (name c : String) :
    (out_path (region_out_name name c)).data
      = name.data ++ '_' ::
          (c.data ++ ['.', 'o', 'u', 't', 'p', 'u', 't', '.', 'b', 'a', 'm']) := by
  simp [out_path, region_out_name, String.data_append, data_lit_underscore,
    data_lit_output_bam]

lemma header_path_data (name : String) :
    (header_path_of name).data
      = name.data ++ '.' :: ['h', 'e', 'a', 'd', 'e', 'r'] := by
  simp [header_path_of, String.data_append, data_lit_header]

lemma final_path_data (name : String) (rs : Option String) (suffix : String) :
    ∃ rest : List Char,
      (final_path name rs suffix).data = name.data ++ '.' :: rest
      ∧ rest.getLast? = some 'm' := by
  cases rs with
  | none =>
    refine ⟨suffix.data ++ ['.', 'b', 'a', 'm'], ?_, ?_⟩
    · simp [final_path, String.data_append, data_lit_dot, data_lit_bam]
    · rw [List.getLast?_append]
      rfl
  | some r =>
    refine ⟨((region_str_for_name r).data ++ '.' :: suffix.data)
        ++ ['.', 'b', 'a', 'm'], ?_, ?_⟩
    · simp [final_path, String.data_append, data_lit_dot, data_lit_bam]
    · rw [List.getLast?_append]
      rfl

lemma bai_path_data (name : String) (rs : Option String) (suffix : String) :
    ∃ rest : List Char,
      (final_path name rs suffix ++ ".bai").data = name.data ++ '.' :: rest
      ∧ rest.getLast? = some 'i' := by
  obtain ⟨rest, hd, _⟩ := final_path_data name rs suffix
  refine ⟨rest ++ ['.', 'b', 'a', 'i'], ?_, ?_⟩
  · rw [String.data_append, hd, data_lit_bai]
    simp
  · rw [List.getLast?_append]
    rfl

lemma final_ne_out_path (name c : String) (rs : Option String)
    (suffix : String) :
    final_path name rs suffix ≠ out_path (region_out_name name c) := by
  obtain ⟨rest, hd, _⟩ := final_path_data name rs suffix
  intro he
  have h2 := congrArg String.data he
  rw [hd, out_path_data] at h2
  have h3 := List.append_cancel_left h2
  injection h3 with h4 _
  exact absurd h4 (by decide)

lemma final_ne_header (name : String) (rs : Option String) (suffix : String) :
    final_path name rs suffix ≠ header_path_of name := by
  obtain ⟨rest, hd, hl⟩ := final_path_data name rs suffix
  intro he
  have h2 := congrArg String.data he
  rw [hd, header_path_data] at h2
  have h3 := List.append_cancel_left h2
  injection h3 with _ h4
  rw [h4] at hl
  exact absurd hl (by decide)

lemma bai_ne_out_path (name c : String) (rs : Option String)
    (suffix : String) :
    final_path name rs suffix ++ ".bai" ≠ out_path (region_out_name name c) := by
  obtain ⟨rest, hd, _⟩ := bai_path_data name rs suffix
  intro he
  have h2 := congrArg String.data he
  rw [hd, out_path_data] at h2
  have h3 := List.append_cancel_left h2
  injection h3 with h4 _
  exact absurd h4 (by decide)

lemma bai_ne_header (name : String) (rs : Option String) (suffix : String) :
    final_path name rs suffix ++ ".bai" ≠ header_path_of name := by
  obtain ⟨rest, hd, hl⟩ := bai_path_data name rs suffix
  intro he
  have h2 := congrArg String.data he
  rw [hd, header_path_data] at h2
  have h3 := List.append_cancel_left h2
  injection h3 with _ h4
  rw [h4] at hl
  exact absurd hl (by decide)

lemma removed_paths_append (l1 l2 : List Event) :
    removed_paths (l1 ++ l2) = removed_paths l1 ++ removed_paths l2 := by
  simp [removed_paths]

lemma removed_paths_map_removeFile (ps : List String) :
    removed_paths (ps.map Event.removeFile) = ps := by
  induction ps with
  | nil => rfl
  | cons p t ih =>
    simp only [List.map_cons, removed_paths, List.filterMap_cons,
      removeFile?] at ih ⊢
    rw [ih]

lemma removed_paths_map_dispatch (name : String) (regs : List String) :
    removed_paths
      (regs.map (fun c => Event.dispatch c (region_out_name name c))) = [] := by
  induction regs with
  | nil => rfl
  | cons c t ih =>
    simp only [List.map_cons, removed_paths, List.filterMap_cons,
      removeFile?] at ih ⊢
    exact ih

lemma filterMap_removeFile?_dispatch (name : String) (regs : List String) :
    List.filterMap
      (removeFile? ∘ fun c => Event.dispatch c (region_out_name name c))
      regs = [] := by
  induction regs with
  | nil => rfl
  | cons c t ih => simp [List.filterMap_cons, removeFile?, ih]

lemma filterMap_removeFile?_removeFile (ps : List String) :
    List.filterMap (removeFile? ∘ Event.removeFile) ps = ps := by
  induction ps with
  | nil => rfl
  | cons p t ih => simpa [List.filterMap_cons, removeFile?] using ih

/-- C9: a run that reaches the end of the merge and index phase removes
exactly the per-region artifact paths of the collected result list followed
by the shared header file, and nothing else: in particular neither the
final merged artifact nor its index file is among the removed paths. -/
theorem cleanup_removes_exactly_artifacts_and_header
    (bam_path out_dir bam_basename suffix : String) (threads : Nat)
    (idxstats_ok : Bool) (bam_chroms ref_chroms : List String)
    (key : String → Nat) (ok : String → Bool) (pi : List Nat) (mE iE : Nat)
    (region_str : Option String) (regs : List String)
    (hres : set_regions region_str idxstats_ok bam_chroms ref_chroms key
      = Except.ok regs)
    (hok : ∀ c ∈ regs, ok c = true)
    (hcover : ∀ i < regs.length, i ∈ pi)
    (hne : regs ≠ []) :
    removed_paths (start_threads bam_path out_dir bam_basename region_str
        suffix threads idxstats_ok bam_chroms ref_chroms key ok pi mE iE).1
      = (run_res (run_name out_dir bam_basename) region_str regs ok
          pi).reduceOption
        ++ [header_path_of (run_name out_dir bam_basename)]
    ∧ final_path (run_name out_dir bam_basename) region_str suffix
        ∉ removed_paths (start_threads bam_path out_dir bam_basename
          region_str suffix threads idxstats_ok bam_chroms ref_chroms key ok
          pi mE iE).1
    ∧ final_path (run_name out_dir bam_basename) region_str suffix ++ ".bai"
        ∉ removed_paths (start_threads bam_path out_dir bam_basename
          region_str suffix threads idxstats_ok bam_chroms ref_chroms key ok
          pi mE iE).1 := by
  cases region_str with
  | some r =>
    have hreq : [r] = regs := by
      have := hres
      simp [set_regions] at this
      exact this
    subst hreq
    have hok_r : ok r = true := hok r (by simp)
    have hbridge : run_res (run_name out_dir bam_basename) (some r) [r] ok pi
        = run_res (run_name out_dir bam_basename) (some r) [] ok pi := rfl
    have hrr : run_res (run_name out_dir bam_basename) (some r) [] ok pi
        = [some (out_path (region_out_name (run_name out_dir bam_basename)
            "1"))] := by
      simp [run_res, job_result, hok_r]
    have hnn : none ∉ run_res (run_name out_dir bam_basename) (some r) []
        ok pi := by
      rw [hrr]
      simp
    have hrem : removed_paths (start_threads bam_path out_dir bam_basename
        (some r) suffix threads idxstats_ok bam_chroms ref_chroms key ok pi
        mE iE).1
        = (run_res (run_name out_dir bam_basename) (some r) [] ok
            pi).reduceOption
          ++ [header_path_of (run_name out_dir bam_basename)] := by
      simp [start_threads, finish_run_of_ok _ _ _ _ _ hnn,
        removed_paths, removeFile?, filterMap_removeFile?_removeFile,
        List.filterMap_cons]
    refine ⟨by rw [hbridge]; exact hrem, ?_, ?_⟩
    · rw [hrem, hrr]
      intro hmem
      rcases List.mem_append.mp hmem with h1 | h1
      · simp at h1
        exact final_ne_out_path _ _ _ _ h1
      · simp at h1
        exact final_ne_header _ _ _ h1
    · rw [hrem, hrr]
      intro hmem
      rcases List.mem_append.mp hmem with h1 | h1
      · simp at h1
        exact bai_ne_out_path _ _ _ _ h1
      · simp at h1
        exact bai_ne_header _ _ _ h1
  | none =>
    have hie : regs.isEmpty = false := by
      cases regs with
      | nil => exact absurd rfl hne
      | cons c cs => rfl
    have hrr : run_res (run_name out_dir bam_basename) none regs ok pi
        = regs.map (fun c => some (out_path
            (region_out_name (run_name out_dir bam_basename) c))) := by
      show pool_res regs ok (run_name out_dir bam_basename) pi = _
      rw [pool_res_eq regs ok (run_name out_dir bam_basename) pi hcover]
      apply List.map_congr_left
      intro c hc
      simp [job_result, hok c hc]
    have hnn : none ∉ run_res (run_name out_dir bam_basename) none regs
        ok pi := by
      rw [hrr]
      simp
    have hrem : removed_paths (start_threads bam_path out_dir bam_basename
        none suffix threads idxstats_ok bam_chroms ref_chroms key ok pi
        mE iE).1
        = (run_res (run_name out_dir bam_basename) none regs ok
            pi).reduceOption
          ++ [header_path_of (run_name out_dir bam_basename)] := by
      simp [start_threads, hres, hie, finish_run_of_ok _ _ _ _ _ hnn,
        removed_paths, removeFile?, filterMap_removeFile?_dispatch,
        filterMap_removeFile?_removeFile, List.filterMap_cons,
        List.filterMap_map]
    refine ⟨hrem, ?_, ?_⟩
    · rw [hrem, hrr, reduceOption_map_some]
      intro hmem
      rcases List.mem_append.mp hmem with h1 | h1
      · rcases List.mem_map.mp h1 with ⟨c, _, hc⟩
        exact final_ne_out_path _ c _ _ hc.symm
      · simp at h1
        exact final_ne_header _ _ _ h1
    · rw [hrem, hrr, reduceOption_map_some]
      intro hmem
      rcases List.mem_append.mp hmem with h1 | h1
      · rcases List.mem_map.mp h1 with ⟨c, _, hc⟩
        exact bai_ne_out_path _ c _ _ hc.symm
      · simp at h1
        exact bai_ne_header _ _ _ h1

/-- Witness for C9 at a concrete two-region run: the removed paths are the
two artifacts plus the header, and the final artifact and its index file
are not removed. -/
theorem cleanup_removes_exactly_artifacts_and_header_witness :
    (set_regions none true ["chr1", "chr2"] ["chr1", "chr2"] (fun _ => 0)
      = Except.ok ["chr1", "chr2"])
    ∧ (∀ c ∈ (["chr1", "chr2"] : List String), (fun _ => true) c = true)
    ∧ (∀ i < (["chr1", "chr2"] : List String).length, i ∈ [0, 1])
    ∧ ((["chr1", "chr2"] : List String) ≠ [])
    ∧ (removed_paths (start_threads "/d/in.bam" "/out" "in.bam" none
        "counts" 4 true ["chr1", "chr2"] ["chr1", "chr2"] (fun _ => 0)
        (fun _ => true) [0, 1] 0 0).1
      = (run_res (run_name "/out" "in.bam") none ["chr1", "chr2"]
          (fun _ => true) [0, 1]).reduceOption
        ++ [header_path_of (run_name "/out" "in.bam")]
      ∧ final_path (run_name "/out" "in.bam") none "counts"
          ∉ removed_paths (start_threads "/d/in.bam" "/out" "in.bam" none
            "counts" 4 true ["chr1", "chr2"] ["chr1", "chr2"] (fun _ => 0)
            (fun _ => true) [0, 1] 0 0).1
      ∧ final_path (run_name "/out" "in.bam") none "counts" ++ ".bai"
          ∉ removed_paths (start_threads "/d/in.bam" "/out" "in.bam" none
            "counts" 4 true ["chr1", "chr2"] ["chr1", "chr2"] (fun _ => 0)
            (fun _ => true) [0, 1] 0 0).1) :=
  ⟨rfl, by decide, by decide, by decide,
   cleanup_removes_exactly_artifacts_and_header "/d/in.bam" "/out" "in.bam"
     "counts" 4 true ["chr1", "chr2"] ["chr1", "chr2"] (fun _ => 0)
     (fun _ => true) [0, 1] 0 0 none ["chr1", "chr2"] rfl (by decide)
     (by decide) (by decide)⟩

end AddCpgCounts
